import Mathlib

/-!
Verification of the HedgeDoc media storage backends
(`src/backend/src/media/backends`): the `FilesystemBackend` and the
`S3Backend`.  Filesystem effects are embedded as explicit state passing
over a small filesystem model; paths are represented as their normalized
segment lists, because node's `path.join` normalizes the joined string
before any syscall sees it.  Each fallible primitive additionally takes an
`Option String` fault, modelling environmental failures (permission
denied, disk full, network failure ...) that are not determined by the
modelled state.
-/

/-- Byte content of a file, as supplied by the caller (a `Buffer` in the code). -/
abbrev Bytes := List Nat

/-- A filesystem path as its normalized segment list.  An absolute path
carries a leading empty segment (as produced by splitting on the separator). -/
abbrev FsPath := List String

/-- The single caller-facing error kind (`MediaBackendError`, the spec's
`StorageError`), carrying only a human-readable message. -/
structure MediaBackendError where
  message : String
  deriving DecidableEq

instance {ε α : Type} [DecidableEq ε] [DecidableEq α] : DecidableEq (Except ε α) := fun a b =>
  match a, b with
  | .ok x, .ok y =>
    if h : x = y then .isTrue (by rw [h]) else .isFalse (by simp [h])
  | .error x, .error y =>
    if h : x = y then .isTrue (by rw [h]) else .isFalse (by simp [h])
  | .ok _, .error _ => .isFalse (by simp)
  | .error _, .ok _ => .isFalse (by simp)

/-- Split a character list at every occurrence of the separator character. -/
def splitChars (sep : Char) : List Char → List (List Char)
  | [] => [[]]
  | c :: rest =>
    if c = sep then [] :: splitChars sep rest
    else
      match splitChars sep rest with
      | [] => [[c]]
      | h :: t => (c :: h) :: t

/-- Path segments of a string, split on the path separator. -/
def splitPath (s : String) : List String :=
  (splitChars '/' s.toList).map (fun cs => String.mk cs)

/-- Whether a path string is absolute. -/
def isAbs (s : String) : Bool :=
  match s.toList with
  | c :: _ => c == '/'
  | [] => false

/-- One step of node path normalization over a reversed segment stack:
empty segments and `.` are dropped, `..` pops a normal segment (at the
root of an absolute path it vanishes, at the head of a relative path it
is kept), anything else is pushed. -/
def normStep (abs : Bool) (stk : List String) (seg : String) : List String :=
  if seg = "" ∨ seg = "." then stk
  else if seg = ".." then
    match stk with
    | [] => if abs then [] else [".."]
    | top :: rest => if top = ".." then ".." :: top :: rest else rest
  else seg :: stk

/-- Node-style normalization of a segment sequence. -/
def normPath (abs : Bool) (segs : List String) : List String :=
  (segs.foldl (normStep abs) []).reverse

/-- Node's `path.join` of a directory and a further path, as normalized segments. -/
def joinPath (dir name : String) : FsPath :=
  (if isAbs dir then [""] else []) ++ normPath (isAbs dir) (splitPath dir ++ splitPath name)

/-- Rendering of a normalized path back to a string, used in error messages. -/
def pathToString (p : FsPath) : String :=
  match p with
  | [] => "."
  | [""] => "/"
  | "" :: rest => "/" ++ String.intercalate "/" rest
  | segs => String.intercalate "/" segs

/-- Association-list lookup for file contents. -/
def lookupB : List (FsPath × Bytes) → FsPath → Option Bytes
  | [], _ => none
  | (q, b) :: rest, p => if q = p then some b else lookupB rest p

/-- Remove every entry stored under a path. -/
def eraseB : List (FsPath × Bytes) → FsPath → List (FsPath × Bytes)
  | [], _ => []
  | (q, b) :: rest, p => if q = p then eraseB rest p else (q, b) :: eraseB rest p

/-- The relevant slice of the filesystem: which directories exist, and the
content of each regular file. -/
structure FsState where
  dirs : List FsPath
  files : List (FsPath × Bytes)
  deriving DecidableEq

/-- Content of the regular file at a path, if any. -/
def fileAt (s : FsState) (p : FsPath) : Option Bytes := lookupB s.files p

/-- The state after overwriting the file at a path. -/
def writeUpd (s : FsState) (p : FsPath) (b : Bytes) : FsState :=
  { s with files := (p, b) :: eraseB s.files p }

/-- The state after removing the file at a path. -/
def eraseUpd (s : FsState) (p : FsPath) : FsState :=
  { s with files := eraseB s.files p }

/-- Boolean membership of a path in a path list. -/
def memPath (p : FsPath) (l : List FsPath) : Bool := l.any (fun q => decide (q = p))

/-- A node exists at the path (a directory or a regular file). -/
def existsAt (s : FsState) (p : FsPath) : Bool :=
  memPath p s.dirs || (fileAt s p).isSome

/-- The parent directory of the path exists (`[]` is the working directory,
`[""]` the root; both always exist). -/
def parentOk (s : FsState) (p : FsPath) : Bool :=
  decide (p.dropLast = []) || decide (p.dropLast = [""]) || memPath p.dropLast s.dirs

/-- Model of `fs.access`: succeeds exactly when something exists at the path. -/
def fsAccess (fault : Option String) (s : FsState) (p : FsPath) : Except String Unit :=
  match fault with
  | some m => .error m
  | none => if existsAt s p then .ok () else .error "ENOENT"

/-- Model of `fs.mkdir`: fails when the path already exists (EEXIST) or its
parent is missing (ENOENT); otherwise records the new directory. -/
def fsMkdir (fault : Option String) (s : FsState) (p : FsPath) : Except String FsState :=
  match fault with
  | some m => .error m
  | none =>
    if existsAt s p then .error "EEXIST"
    else if parentOk s p then .ok { s with dirs := p :: s.dirs }
    else .error "ENOENT"

/-- Model of `fs.writeFile`: fails on a directory target (EISDIR) or a
missing parent (ENOENT); otherwise overwrites the file content. -/
def fsWriteFile (fault : Option String) (s : FsState) (p : FsPath) (b : Bytes) :
    Except String FsState :=
  match fault with
  | some m => .error m
  | none =>
    if memPath p s.dirs then .error "EISDIR"
    else if parentOk s p then .ok (writeUpd s p b)
    else .error "ENOENT"

/-- Model of `fs.unlink`: fails when no regular file is at the path;
otherwise removes it. -/
def fsUnlink (fault : Option String) (s : FsState) (p : FsPath) : Except String FsState :=
  match fault with
  | some m => .error m
  | none =>
    if (fileAt s p).isSome then .ok (eraseUpd s p)
    else .error "ENOENT"

/-- Faults injected into the four filesystem primitives a backend call uses. -/
structure FsFaults where
  access : Option String
  mkdir : Option String
  write : Option String
  unlink : Option String
  deriving DecidableEq

/-- No environmental fault anywhere. -/
def noFaults : FsFaults := ⟨none, none, none, none⟩

/-- The sequential (no concurrent interference) schedule. -/
def noRace : FsState → FsState := fun s => s

namespace FilesystemBackend

/-- `getFilePath`: `join(this.uploadDirectory, fileName)`, as normalized segments. -/
def getFilePath (uploadDirectory fileName : String) : FsPath :=
  joinPath uploadDirectory fileName

/-- The normalized path of the upload directory itself. -/
def uploadDirPath (uploadDirectory : String) : FsPath :=
  joinPath uploadDirectory ""

/-- `ensureDirectory`: `fs.access` on the upload directory and, when that
fails, `fs.mkdir`; a mkdir failure is surfaced as a `MediaBackendError`.
The `race` parameter is the interference the environment may cause between
the failed access check and the mkdir call (`noRace` when the call runs alone). -/
def ensureDirectory (f : FsFaults) (race : FsState → FsState)
    (uploadDirectory : String) (s : FsState) : Except MediaBackendError FsState :=
  match fsAccess f.access s (uploadDirPath uploadDirectory) with
  | .ok _ => .ok s
  | .error _ =>
    match fsMkdir f.mkdir (race s) (uploadDirPath uploadDirectory) with
    | .ok s2 => .ok s2
    | .error _ => .error { message := "Could not create '" ++ uploadDirectory ++ "'" }

/-- `saveFile`: ensure the upload directory, then `fs.writeFile` the buffer
to `join(uploadDirectory, uuid)`; a write failure is surfaced as a
`MediaBackendError`. -/
def saveFile (f : FsFaults) (race : FsState → FsState) (uploadDirectory uuid : String)
    (buffer : Bytes) (s : FsState) : Except MediaBackendError FsState :=
  match ensureDirectory f race uploadDirectory s with
  | .error e => .error e
  | .ok s1 =>
    match fsWriteFile f.write s1 (getFilePath uploadDirectory uuid) buffer with
    | .ok s2 => .ok s2
    | .error _ =>
      .error { message := "Could not save file '"
          ++ pathToString (getFilePath uploadDirectory uuid) ++ "'" }

/-- `deleteFile`: `fs.unlink` on `join(uploadDirectory, uuid)`; a failure is
surfaced as a `MediaBackendError`. -/
def deleteFile (f : FsFaults) (uploadDirectory uuid : String) (s : FsState) :
    Except MediaBackendError FsState :=
  match fsUnlink f.unlink s (getFilePath uploadDirectory uuid) with
  | .ok s2 => .ok s2
  | .error _ =>
    .error { message := "Could not delete file '"
        ++ pathToString (getFilePath uploadDirectory uuid) ++ "'" }

/-- `getFileUrl`: pure string formatting, no filesystem access. -/
def getFileUrl (uuid : String) : String := "/uploads/" ++ uuid

end FilesystemBackend

/-- The configured backend kind (`BackendType`). -/
inductive BackendType
  | filesystem
  | s3
  deriving DecidableEq

/-- The S3 part of the media configuration. -/
structure S3Config where
  endPoint : String
  accessKeyId : String
  secretAccessKey : String
  bucket : String
  region : String
  pathStyle : Bool
  deriving DecidableEq

/-- The media configuration slice both backends read. -/
structure MediaConfig where
  use : BackendType
  uploadPath : String
  s3 : S3Config
  deriving DecidableEq

/-- The attributes of a parsed URL the constructor reads: `protocol` (with
its trailing colon), `hostname`, and `port` as a digit string (empty when
the URL carries no port). -/
structure URLParts where
  protocol : String
  hostname : String
  port : String
  deriving DecidableEq

/-- Split a character list at the first occurrence of a separator substring. -/
def breakOnSub (sep : List Char) : List Char → Option (List Char × List Char)
  | [] => none
  | c :: rest =>
    if sep.isPrefixOf (c :: rest) then some ([], (c :: rest).drop sep.length)
    else
      match breakOnSub sep rest with
      | some (pre, post) => some (c :: pre, post)
      | none => none

/-- Modelled from the WHATWG `URL` class restricted to the simple
`scheme://host[:port][/path]` endpoints the S3 configuration uses: `none`
when `new URL` would throw. -/
def parseURL (s : String) : Option URLParts :=
  match breakOnSub ("://".toList) s.toList with
  | none => none
  | some (schemeCs, restCs) =>
    if schemeCs = [] then none
    else
      match splitChars ':' (restCs.takeWhile (fun c => !(c == '/'))) with
      | [hostCs] =>
        if hostCs = [] then none
        else some { protocol := String.mk schemeCs ++ ":", hostname := String.mk hostCs,
                    port := "" }
      | [hostCs, portCs] =>
        if hostCs = [] then none
        else if portCs.all Char.isDigit then
          some { protocol := String.mk schemeCs ++ ":", hostname := String.mk hostCs,
                 port := String.mk portCs }
        else none
      | _ => none

/-- Modelled from JS `parseInt` on a URL port attribute (always a digit
string or empty there): the numeric value, or `none` for NaN. -/
def parseIntOpt (s : String) : Option Nat :=
  match s.toList with
  | [] => none
  | cs =>
    if cs.all Char.isDigit then some (cs.foldl (fun n c => n * 10 + (c.toNat - 48)) 0)
    else none

/-- The minio `Client` construction record. -/
structure S3Client where
  endPoint : String
  port : Option Nat
  useSSL : Bool
  accessKey : String
  secretKey : String
  pathStyle : Bool
  region : String
  deriving DecidableEq

/-- An S3-compatible object store: (bucket, key, content) triples. -/
abbrev S3Store := List (String × String × Bytes)

/-- Content of the object under a key in a bucket, if any. -/
def objAt : S3Store → String → String → Option Bytes
  | [], _, _ => none
  | (b, k, c) :: rest, bucket, key =>
    if b = bucket ∧ k = key then some c else objAt rest bucket key

/-- Remove every object under a key in a bucket. -/
def eraseObj : S3Store → String → String → S3Store
  | [], _, _ => []
  | (b, k, c) :: rest, bucket, key =>
    if b = bucket ∧ k = key then eraseObj rest bucket key
    else (b, k, c) :: eraseObj rest bucket key

/-- Modelled from the minio client: `putObject` overwrites the object under
the key; the fault models any network or store failure. -/
def putObject (fault : Option String) (st : S3Store) (bucket key : String) (content : Bytes) :
    Except String S3Store :=
  match fault with
  | some m => .error m
  | none => .ok ((bucket, key, content) :: eraseObj st bucket key)

/-- Modelled from the minio client: `removeObject`; S3 deletion of a missing
key succeeds. -/
def removeObject (fault : Option String) (st : S3Store) (bucket key : String) :
    Except String S3Store :=
  match fault with
  | some m => .error m
  | none => .ok (eraseObj st bucket key)

namespace S3Backend

/-- `determinePort`: `parseInt` on the port attribute, `undefined` on NaN. -/
def determinePort (u : URLParts) : Option Nat := parseIntOpt u.port

/-- The fields of an `S3Backend` instance; both stay `none` when the
constructor short-circuits. -/
structure State where
  config : Option S3Config
  client : Option S3Client
  deriving DecidableEq

/-- The constructor: returns immediately (leaving `config` and `client`
undefined) when S3 is not the configured backend; otherwise parses the
endpoint URL (`none` when `new URL` throws) and builds the client. -/
def construct (cfg : MediaConfig) : Option State :=
  if cfg.use = BackendType.s3 then
    match parseURL cfg.s3.endPoint with
    | none => none
    | some u =>
      some { config := some cfg.s3,
             client := some { endPoint := u.hostname, port := determinePort u,
                              useSSL := decide (u.protocol = "https:"),
                              accessKey := cfg.s3.accessKeyId,
                              secretKey := cfg.s3.secretAccessKey,
                              pathStyle := cfg.s3.pathStyle,
                              region := cfg.s3.region } }
  else some { config := none, client := none }

/-- `saveFile`: `putObject` into the configured bucket inside try/catch.  A
missing `client` or `config` (inactive backend) raises a synchronous
TypeError inside the try block, so it lands in the same catch. -/
def saveFile (b : State) (fault : Option String) (uuid : String) (buffer : Bytes)
    (st : S3Store) : Except MediaBackendError S3Store :=
  match b.client, b.config with
  | some _, some cfg =>
    match putObject fault st cfg.bucket uuid buffer with
    | .ok st2 => .ok st2
    | .error _ => .error { message := "Could not save file " ++ uuid ++ " on S3" }
  | _, _ => .error { message := "Could not save file " ++ uuid ++ " on S3" }

/-- `deleteFile`: `removeObject` from the configured bucket inside try/catch,
with the same TypeError route for an inactive backend. -/
def deleteFile (b : State) (fault : Option String) (uuid : String) (st : S3Store) :
    Except MediaBackendError S3Store :=
  match b.client, b.config with
  | some _, some cfg =>
    match removeObject fault st cfg.bucket uuid with
    | .ok st2 => .ok st2
    | .error _ => .error { message := "Could not delete '" ++ uuid ++ "' on S3" }
  | _, _ => .error { message := "Could not delete '" ++ uuid ++ "' on S3" }

/-- `getFileUrl`: `presignedGetObject` inside try/catch; `presign` is the
minio client's signing routine (network and signing effects abstracted),
with the same TypeError route for an inactive backend. -/
def getFileUrl (b : State) (presign : String → String → Except String String)
    (uuid : String) : Except MediaBackendError String :=
  match b.client, b.config with
  | some _, some cfg =>
    match presign cfg.bucket uuid with
    | .ok url => .ok url
    | .error _ => .error { message := "Could not get URL for '" ++ uuid ++ "' on S3" }
  | _, _ => .error { message := "Could not get URL for '" ++ uuid ++ "' on S3" }

end S3Backend

/-- Whether an `Except` result is a success. -/
def isOkE {ε α : Type} : Except ε α → Bool
  | .ok _ => true
  | .error _ => false

/-- Observation of a filesystem result: `some` of the content stored at the
path after a successful run, `none` on failure. -/
def fileAfter (r : Except MediaBackendError FsState) (p : FsPath) : Option (Option Bytes) :=
  match r with
  | .ok s => some (fileAt s p)
  | .error _ => none

/-- Observation of an object-store result, as `fileAfter`. -/
def objAfter (r : Except MediaBackendError S3Store) (bucket key : String) :
    Option (Option Bytes) :=
  match r with
  | .ok st => some (objAt st bucket key)
  | .error _ => none

/-! Helper lemmas about the association-list filesystem model. -/

theorem lookupB_eraseB_self (l : List (FsPath × Bytes)) (p : FsPath) :
    lookupB (eraseB l p) p = none := by
  induction l with
  | nil => rfl
  | cons hd tl ih =>
    obtain ⟨q, b⟩ := hd
    by_cases h : q = p
    · simp [eraseB, h, ih]
    · simp [eraseB, lookupB, h, ih]

theorem lookupB_eraseB_ne (l : List (FsPath × Bytes)) (p q : FsPath) (h : q ≠ p) :
    lookupB (eraseB l p) q = lookupB l q := by
  induction l with
  | nil => rfl
  | cons hd tl ih =>
    obtain ⟨r, b⟩ := hd
    by_cases hr : r = p
    · subst hr
      have : r ≠ q := fun hq => h (hq ▸ rfl)
      simp [eraseB, lookupB, this, ih]
    · by_cases hq : r = q
      · subst hq
        simp [eraseB, lookupB, hr, h, ih]
      · simp [eraseB, lookupB, hr, hq, ih]

theorem lookupB_cons_self (l : List (FsPath × Bytes)) (p : FsPath) (b : Bytes) :
    lookupB ((p, b) :: l) p = some b := by
  simp [lookupB]

theorem lookupB_cons_ne (l : List (FsPath × Bytes)) (p q : FsPath) (b : Bytes) (h : q ≠ p) :
    lookupB ((p, b) :: l) q = lookupB l q := by
  have hp : p ≠ q := fun hq => h hq.symm
  simp [lookupB, hp]

/-! Characterization lemmas for the filesystem primitives. -/

theorem fsAccess_ok_iff (fault : Option String) (s : FsState) (p : FsPath) (u : Unit) :
    fsAccess fault s p = .ok u ↔ fault = none ∧ existsAt s p = true := by
  cases fault with
  | some m => simp [fsAccess]
  | none =>
    by_cases he : existsAt s p = true
    · simp [fsAccess, he]
    · simp [fsAccess, he]

theorem fsMkdir_ok_iff (fault : Option String) (s : FsState) (p : FsPath) (s2 : FsState) :
    fsMkdir fault s p = .ok s2 ↔
      fault = none ∧ existsAt s p = false ∧ parentOk s p = true ∧
        s2 = { s with dirs := p :: s.dirs } := by
  cases fault with
  | some m => simp [fsMkdir]
  | none =>
    by_cases he : existsAt s p = true
    · simp [fsMkdir, he]
    · by_cases hp : parentOk s p = true
      · simp [fsMkdir, he, hp, eq_comm]
      · simp [fsMkdir, he, hp]

theorem fsWriteFile_ok_iff (fault : Option String) (s : FsState) (p : FsPath) (b : Bytes)
    (s2 : FsState) :
    fsWriteFile fault s p b = .ok s2 ↔
      fault = none ∧ memPath p s.dirs = false ∧ parentOk s p = true ∧
        s2 = writeUpd s p b := by
  cases fault with
  | some m => simp [fsWriteFile]
  | none =>
    by_cases hd : memPath p s.dirs = true
    · simp [fsWriteFile, hd]
    · by_cases hp : parentOk s p = true
      · simp [fsWriteFile, hd, hp, eq_comm]
      · simp [fsWriteFile, hd, hp]

theorem fsUnlink_ok_iff (fault : Option String) (s : FsState) (p : FsPath) (s2 : FsState) :
    fsUnlink fault s p = .ok s2 ↔
      fault = none ∧ (fileAt s p).isSome = true ∧ s2 = eraseUpd s p := by
  cases fault with
  | some m => simp [fsUnlink]
  | none =>
    by_cases he : (fileAt s p).isSome = true
    · simp [fsUnlink, he, eq_comm]
    · simp [fsUnlink, he]

theorem existsAt_write (s : FsState) (p key : FsPath) (b : Bytes)
    (h : existsAt s key = true) :
    existsAt (writeUpd s p b) key = true := by
  have h2 : (memPath key s.dirs || (fileAt s key).isSome) = true := h
  rcases Bool.or_eq_true_iff.mp h2 with hm | hf
  · exact Bool.or_eq_true_iff.mpr (Or.inl hm)
  · refine Bool.or_eq_true_iff.mpr (Or.inr ?_)
    by_cases hk : key = p
    · subst hk
      simp [writeUpd, fileAt, lookupB]
    · show (fileAt _ key).isSome = true
      rw [fileAt]
      show (lookupB ((p, b) :: eraseB s.files p) key).isSome = true
      rw [lookupB_cons_ne _ _ _ _ hk, lookupB_eraseB_ne _ _ _ hk]
      exact hf

theorem ensureDirectory_ok (f : FsFaults) (race : FsState → FsState) (dir : String)
    (s s1 : FsState)
    (h : FilesystemBackend.ensureDirectory f race dir s = .ok s1) :
    (s1 = s ∧ existsAt s (FilesystemBackend.uploadDirPath dir) = true) ∨
      s1 = { race s with
             dirs := FilesystemBackend.uploadDirPath dir :: (race s).dirs } := by
  unfold FilesystemBackend.ensureDirectory at h
  cases hacc : fsAccess f.access s (FilesystemBackend.uploadDirPath dir) with
  | ok u =>
    rw [hacc] at h
    obtain ⟨-, he⟩ := (fsAccess_ok_iff f.access s _ u).mp hacc
    exact Or.inl ⟨(Except.ok.inj h).symm, he⟩
  | error m =>
    rw [hacc] at h
    cases hmk : fsMkdir f.mkdir (race s) (FilesystemBackend.uploadDirPath dir) with
    | ok s3 =>
      rw [hmk] at h
      obtain ⟨-, -, -, hs3⟩ := (fsMkdir_ok_iff f.mkdir (race s) _ s3).mp hmk
      exact Or.inr ((Except.ok.inj h).symm.trans hs3)
    | error mm =>
      rw [hmk] at h
      cases h

theorem ensureDirectory_of_exists (race : FsState → FsState) (dir : String) (s : FsState)
    (h : existsAt s (FilesystemBackend.uploadDirPath dir) = true) :
    FilesystemBackend.ensureDirectory noFaults race dir s = .ok s := by
  unfold FilesystemBackend.ensureDirectory
  have : fsAccess noFaults.access s (FilesystemBackend.uploadDirPath dir) = .ok () :=
    (fsAccess_ok_iff none s _ ()).mpr ⟨rfl, h⟩
  rw [this]

theorem ensureDirectory_error (f : FsFaults) (race : FsState → FsState) (dir : String)
    (s : FsState) (e : MediaBackendError)
    (h : FilesystemBackend.ensureDirectory f race dir s = .error e) :
    e = { message := "Could not create '" ++ dir ++ "'" } := by
  unfold FilesystemBackend.ensureDirectory at h
  cases hacc : fsAccess f.access s (FilesystemBackend.uploadDirPath dir) with
  | ok u => rw [hacc] at h; cases h
  | error m =>
    rw [hacc] at h
    cases hmk : fsMkdir f.mkdir (race s) (FilesystemBackend.uploadDirPath dir) with
    | ok s3 => rw [hmk] at h; cases h
    | error mm => rw [hmk] at h; exact (Except.error.inj h).symm

/-- Claim C1: for every identifier and byte content, a successful
`FilesystemBackend.saveFile` ensures the configured upload directory exists
(creating it if absent) and writes the content to
`join(uploadDirectory, id)`, so that a read of that storage location in the
resulting state yields exactly the content.  Quantified over arbitrary
primitive faults and arbitrary interference at the access/mkdir race point:
a successful run already forces both postconditions. -/
theorem c1_saveFile_roundtrip (f : FsFaults) (race : FsState → FsState)
    (dir uuid : String) (buffer : Bytes) (s s2 : FsState)
    (h : FilesystemBackend.saveFile f race dir uuid buffer s = .ok s2) :
    fileAt s2 (FilesystemBackend.getFilePath dir uuid) = some buffer ∧
      existsAt s2 (FilesystemBackend.uploadDirPath dir) = true := by
  unfold FilesystemBackend.saveFile at h
  cases hens : FilesystemBackend.ensureDirectory f race dir s with
  | error e => simp only [hens] at h; exact Except.noConfusion h
  | ok s1 =>
    simp only [hens] at h
    cases hw : fsWriteFile f.write s1 (FilesystemBackend.getFilePath dir uuid) buffer with
    | error m => simp only [hw] at h; exact Except.noConfusion h
    | ok s3 =>
      simp only [hw] at h
      obtain ⟨-, hmem, hpar, hs3⟩ := (fsWriteFile_ok_iff _ _ _ _ _).mp hw
      have hs : s2 = s3 := (Except.ok.inj h).symm
      subst hs; subst hs3
      constructor
      · simp [writeUpd, fileAt, lookupB]
      · have h1 : existsAt s1 (FilesystemBackend.uploadDirPath dir) = true := by
          rcases ensureDirectory_ok f race dir s s1 hens with ⟨rfl, he⟩ | rfl
          · exact he
          · simp [existsAt, memPath]
        exact existsAt_write s1 _ _ buffer h1

/-- Witness for C1 at a concrete run: saving byte content `[1, 2]` as
identifier `a` under upload directory `up` starting from the empty
filesystem. -/
theorem c1_saveFile_roundtrip_witness :
    fileAt ⟨[["up"]], [(["up", "a"], [1, 2])]⟩ (FilesystemBackend.getFilePath "up" "a") =
        some [1, 2] ∧
      existsAt ⟨[["up"]], [(["up", "a"], [1, 2])]⟩
        (FilesystemBackend.uploadDirPath "up") = true :=
  c1_saveFile_roundtrip noFaults noRace "up" "a" [1, 2] ⟨[], []⟩ _ (by decide)

/-- Claim C2 counterexample: when the upload directory is created between
the failed access check and the mkdir call (the directory-exists race), the
mkdir EEXIST failure is NOT treated as success: `saveFile` aborts with the
`StorageError`  for directory creation instead of proceeding with the
write.  The first two conjuncts exhibit the race ingredients, the third the
failing `saveFile` run at that interference. -/
theorem c2_mkdir_race_counterexample :
    fsAccess none ⟨[], []⟩ (FilesystemBackend.uploadDirPath "up") = .error "ENOENT" ∧
      fsMkdir none ⟨[FilesystemBackend.uploadDirPath "up"], []⟩
        (FilesystemBackend.uploadDirPath "up") = .error "EEXIST" ∧
      FilesystemBackend.saveFile noFaults
        (fun s => { s with dirs := FilesystemBackend.uploadDirPath "up" :: s.dirs })
        "up" "a" [1] ⟨[], []⟩ =
        .error { message := "Could not create 'up'" } := by
  decide

/-- Claim C2 amended: only when the access check itself succeeds (the
directory already exists at check time) does the operation proceed without
a directory error; if the access check fails and the directory appears
concurrently before the mkdir call, the mkdir already-exists failure is
surfaced as a `StorageError` rather than treated as success. -/
theorem c2_mkdir_race_amended :
    (∀ (race : FsState → FsState) (dir : String) (s : FsState),
        existsAt s (FilesystemBackend.uploadDirPath dir) = true →
          FilesystemBackend.ensureDirectory noFaults race dir s = .ok s) ∧
      (∀ (race : FsState → FsState) (dir : String) (s : FsState),
          existsAt s (FilesystemBackend.uploadDirPath dir) = false →
          existsAt (race s) (FilesystemBackend.uploadDirPath dir) = true →
            FilesystemBackend.ensureDirectory noFaults race dir s =
              .error { message := "Could not create '" ++ dir ++ "'" }) := by
  constructor
  · exact fun race dir s h => ensureDirectory_of_exists race dir s h
  · intro race dir s h0 h1
    unfold FilesystemBackend.ensureDirectory
    have hacc : fsAccess noFaults.access s (FilesystemBackend.uploadDirPath dir) =
        .error "ENOENT" := by
      simp [fsAccess, noFaults, h0]
    rw [hacc]
    have hmk : fsMkdir noFaults.mkdir (race s) (FilesystemBackend.uploadDirPath dir) =
        .error "EEXIST" := by
      simp [fsMkdir, noFaults, h1]
    rw [hmk]

/-- Witness for the amended C2 at a concrete race: the directory `up` is
absent at access time and created by the interference before mkdir. -/
theorem c2_mkdir_race_amended_witness :
    FilesystemBackend.ensureDirectory noFaults
      (fun s => { s with dirs := FilesystemBackend.uploadDirPath "up" :: s.dirs })
      "up" ⟨[], []⟩ =
      .error { message := "Could not create 'up'" } :=
  c2_mkdir_race_amended.2
    (fun s => { s with dirs := FilesystemBackend.uploadDirPath "up" :: s.dirs })
    "up" ⟨[], []⟩ (by decide) (by decide)

/-- Claim C3: `deleteFile` removes the file at `join(uploadDirectory, id)`;
without an environmental fault it succeeds exactly when that file exists,
and after a successful delete the file is gone and an immediately repeated
delete (under any faults) fails with the delete `StorageError`. -/
theorem c3_deleteFile_spec :
    (∀ (dir uuid : String) (s : FsState),
        isOkE (FilesystemBackend.deleteFile noFaults dir uuid s) = true ↔
          (fileAt s (FilesystemBackend.getFilePath dir uuid)).isSome = true) ∧
      (∀ (f f2 : FsFaults) (dir uuid : String) (s s2 : FsState),
          FilesystemBackend.deleteFile f dir uuid s = .ok s2 →
            fileAt s2 (FilesystemBackend.getFilePath dir uuid) = none ∧
              FilesystemBackend.deleteFile f2 dir uuid s2 =
                .error { message := "Could not delete file '"
                    ++ pathToString (FilesystemBackend.getFilePath dir uuid) ++ "'" }) := by
  constructor
  · intro dir uuid s
    by_cases he : (fileAt s (FilesystemBackend.getFilePath dir uuid)).isSome = true
    · simp [FilesystemBackend.deleteFile, fsUnlink, noFaults, he, isOkE]
    · simp [FilesystemBackend.deleteFile, fsUnlink, noFaults, he, isOkE]
  · intro f f2 dir uuid s s2 h
    unfold FilesystemBackend.deleteFile at h
    cases hu : fsUnlink f.unlink s (FilesystemBackend.getFilePath dir uuid) with
    | error m => rw [hu] at h; cases h
    | ok s3 =>
      rw [hu] at h
      obtain ⟨-, hsome, hs3⟩ := (fsUnlink_ok_iff _ _ _ _).mp hu
      have hs : s2 = s3 := (Except.ok.inj h).symm
      subst hs; subst hs3
      have hn : fileAt (eraseUpd s (FilesystemBackend.getFilePath dir uuid))
          (FilesystemBackend.getFilePath dir uuid) = none :=
        lookupB_eraseB_self s.files _
      refine ⟨hn, ?_⟩
      cases hf2 : f2.unlink with
      | some m => simp [FilesystemBackend.deleteFile, fsUnlink, hf2]
      | none => simp [FilesystemBackend.deleteFile, fsUnlink, hf2, hn]

/-- Witness for C3 at a concrete run: deleting the only stored file. -/
theorem c3_deleteFile_spec_witness :
    fileAt ⟨[["up"]], []⟩ (FilesystemBackend.getFilePath "up" "a") = none ∧
      FilesystemBackend.deleteFile noFaults "up" "a" ⟨[["up"]], []⟩ =
        .error { message := "Could not delete file '"
            ++ pathToString (FilesystemBackend.getFilePath "up" "a") ++ "'" } :=
  c3_deleteFile_spec.2 noFaults noFaults "up" "a" ⟨[["up"]], [(["up", "a"], [1])]⟩ _ (by decide)

/-- Claim C4: `FilesystemBackend.getFileUrl` is pure string formatting
(its type is a total function on strings, with no filesystem state in or
out, so no I/O and no failure are possible) and returns exactly
`/uploads/` followed by the identifier; in particular it maps `abc` to
`/uploads/abc`. -/
theorem c4_getFileUrl_shape :
    (∀ uuid : String, FilesystemBackend.getFileUrl uuid = "/uploads/" ++ uuid) ∧
      FilesystemBackend.getFileUrl "abc" = "/uploads/abc" :=
  ⟨fun _ => rfl, by decide⟩

theorem saveFile_writable (dir uuid : String) (c2 : Bytes) (s1 : FsState)
    (hex : existsAt s1 (FilesystemBackend.uploadDirPath dir) = true)
    (hmem : memPath (FilesystemBackend.getFilePath dir uuid) s1.dirs = false)
    (hpar : parentOk s1 (FilesystemBackend.getFilePath dir uuid) = true) :
    fileAfter (FilesystemBackend.saveFile noFaults noRace dir uuid c2 s1)
        (FilesystemBackend.getFilePath dir uuid) = some (some c2) := by
  have he2 := ensureDirectory_of_exists noRace dir s1 hex
  have hw2 : fsWriteFile noFaults.write s1 (FilesystemBackend.getFilePath dir uuid) c2 =
      .ok (writeUpd s1 (FilesystemBackend.getFilePath dir uuid) c2) :=
    (fsWriteFile_ok_iff _ _ _ _ _).mpr ⟨rfl, hmem, hpar, rfl⟩
  simp only [FilesystemBackend.saveFile, he2, hw2, fileAfter]
  simp [writeUpd, fileAt, lookupB]

/-- Claim C5: overwrite semantics on both backends.  Filesystem: after any
successful `saveFile(id, c1)`, a fault-free sequential `saveFile(id, c2)`
succeeds and reading the storage location back yields exactly `c2`.  S3: on
an initialized backend, after a successful fault-free `saveFile(id, c1)`, a
second fault-free `saveFile(id, c2)` succeeds and the object under that key
is exactly `c2`. -/
theorem c5_overwrite :
    (∀ (f : FsFaults) (race : FsState → FsState) (dir uuid : String) (c1 c2 : Bytes)
        (s s1 : FsState),
        FilesystemBackend.saveFile f race dir uuid c1 s = .ok s1 →
          fileAfter (FilesystemBackend.saveFile noFaults noRace dir uuid c2 s1)
              (FilesystemBackend.getFilePath dir uuid) = some (some c2)) ∧
      (∀ (b : S3Backend.State) (cfg : S3Config) (uuid : String) (c1 c2 : Bytes)
          (st st1 : S3Store),
          b.config = some cfg →
          S3Backend.saveFile b none uuid c1 st = .ok st1 →
            objAfter (S3Backend.saveFile b none uuid c2 st1) cfg.bucket uuid =
              some (some c2)) := by
  constructor
  · intro f race dir uuid c1 c2 s s1 h
    unfold FilesystemBackend.saveFile at h
    cases hens : FilesystemBackend.ensureDirectory f race dir s with
    | error e => simp only [hens] at h; exact Except.noConfusion h
    | ok sE =>
      simp only [hens] at h
      cases hw : fsWriteFile f.write sE (FilesystemBackend.getFilePath dir uuid) c1 with
      | error m => simp only [hw] at h; exact Except.noConfusion h
      | ok s3 =>
        simp only [hw] at h
        obtain ⟨-, hmem, hpar, hs3⟩ := (fsWriteFile_ok_iff _ _ _ _ _).mp hw
        have hs : s1 = s3 := (Except.ok.inj h).symm
        subst hs; subst hs3
        have hexE : existsAt sE (FilesystemBackend.uploadDirPath dir) = true := by
          rcases ensureDirectory_ok f race dir s sE hens with ⟨rfl, he⟩ | rfl
          · exact he
          · simp [existsAt, memPath]
        exact saveFile_writable dir uuid c2 _ (existsAt_write sE _ _ c1 hexE) hmem hpar
  · intro b cfg uuid c1 c2 st st1 hcfg h
    cases hcl : b.client with
    | none => unfold S3Backend.saveFile at h; rw [hcl] at h; exact Except.noConfusion h
    | some cl =>
      unfold S3Backend.saveFile at h ⊢
      rw [hcl, hcfg] at h ⊢
      simp only [putObject] at h ⊢
      have hst : st1 = (cfg.bucket, uuid, c1) :: eraseObj st cfg.bucket uuid :=
        (Except.ok.inj h).symm
      subst hst
      simp [objAfter, objAt]

/-- Witness for C5 at concrete runs on both backends: identifier `a`,
content `[1]` overwritten with `[2]` on the filesystem, and key `k` with
content `[1]` overwritten with `[2]` in bucket `bkt` on S3. -/
theorem c5_overwrite_witness :
    fileAfter (FilesystemBackend.saveFile noFaults noRace "up" "a" [2]
        ⟨[["up"]], [(["up", "a"], [1])]⟩)
        (FilesystemBackend.getFilePath "up" "a") = some (some [2]) ∧
      objAfter (S3Backend.saveFile
          ⟨some ⟨"https://h", "AK", "SK", "bkt", "r1", true⟩,
           some ⟨"h", none, true, "AK", "SK", true, "r1"⟩⟩ none "k" [2]
          [("bkt", "k", [1])]) "bkt" "k" = some (some [2]) :=
  ⟨c5_overwrite.1 noFaults noRace "up" "a" [1] [2] ⟨[["up"]], []⟩ _ (by decide),
   c5_overwrite.2 ⟨some ⟨"https://h", "AK", "SK", "bkt", "r1", true⟩,
       some ⟨"h", none, true, "AK", "SK", true, "r1"⟩⟩
     ⟨"https://h", "AK", "SK", "bkt", "r1", true⟩ "k" [1] [2] [] _ (by decide) (by decide)⟩

/-- Claim C6: on both backends, every failing operation surfaces to the
caller as the single error kind `MediaBackendError` (the result type admits
no other error), and the error message names the failed operation and the
affected identifier or path, independently of the underlying failure cause
(fault or state), so the caller gets no structured distinction between
causes. -/
theorem c6_error_flattening :
    (∀ (f : FsFaults) (race : FsState → FsState) (dir uuid : String) (buffer : Bytes)
        (s : FsState) (e : MediaBackendError),
        FilesystemBackend.saveFile f race dir uuid buffer s = .error e →
          e.message = "Could not create '" ++ dir ++ "'" ∨
            e.message = "Could not save file '"
              ++ pathToString (FilesystemBackend.getFilePath dir uuid) ++ "'") ∧
      (∀ (f : FsFaults) (dir uuid : String) (s : FsState) (e : MediaBackendError),
          FilesystemBackend.deleteFile f dir uuid s = .error e →
            e.message = "Could not delete file '"
              ++ pathToString (FilesystemBackend.getFilePath dir uuid) ++ "'") ∧
      (∀ (b : S3Backend.State) (fault : Option String) (uuid : String) (buffer : Bytes)
          (st : S3Store) (e : MediaBackendError),
          S3Backend.saveFile b fault uuid buffer st = .error e →
            e.message = "Could not save file " ++ uuid ++ " on S3") ∧
      (∀ (b : S3Backend.State) (fault : Option String) (uuid : String) (st : S3Store)
          (e : MediaBackendError),
          S3Backend.deleteFile b fault uuid st = .error e →
            e.message = "Could not delete '" ++ uuid ++ "' on S3") ∧
      (∀ (b : S3Backend.State) (presign : String → String → Except String String)
          (uuid : String) (e : MediaBackendError),
          S3Backend.getFileUrl b presign uuid = .error e →
            e.message = "Could not get URL for '" ++ uuid ++ "' on S3") := by
  refine ⟨?_, ?_, ?_, ?_, ?_⟩
  · intro f race dir uuid buffer s e h
    unfold FilesystemBackend.saveFile at h
    cases hens : FilesystemBackend.ensureDirectory f race dir s with
    | error e1 =>
      simp only [hens] at h
      left
      rw [← Except.error.inj h, ensureDirectory_error f race dir s e1 hens]
    | ok s1 =>
      simp only [hens] at h
      cases hw : fsWriteFile f.write s1 (FilesystemBackend.getFilePath dir uuid) buffer with
      | ok s3 => simp only [hw] at h; exact Except.noConfusion h
      | error m =>
        simp only [hw] at h
        right
        rw [← Except.error.inj h]
  · intro f dir uuid s e h
    unfold FilesystemBackend.deleteFile at h
    cases hu : fsUnlink f.unlink s (FilesystemBackend.getFilePath dir uuid) with
    | ok s3 => simp only [hu] at h; exact Except.noConfusion h
    | error m =>
      simp only [hu] at h
      rw [← Except.error.inj h]
  · intro b fault uuid buffer st e h
    obtain ⟨bc, bl⟩ := b
    cases bl with
    | none =>
      cases bc <;> simp [S3Backend.saveFile] at h <;> rw [← h]
    | some cl =>
      cases bc with
      | none => simp [S3Backend.saveFile] at h; rw [← h]
      | some cfg =>
        cases fault with
        | some m => simp [S3Backend.saveFile, putObject] at h; rw [← h]
        | none => simp [S3Backend.saveFile, putObject] at h
  · intro b fault uuid st e h
    obtain ⟨bc, bl⟩ := b
    cases bl with
    | none =>
      cases bc <;> simp [S3Backend.deleteFile] at h <;> rw [← h]
    | some cl =>
      cases bc with
      | none => simp [S3Backend.deleteFile] at h; rw [← h]
      | some cfg =>
        cases fault with
        | some m => simp [S3Backend.deleteFile, removeObject] at h; rw [← h]
        | none => simp [S3Backend.deleteFile, removeObject] at h
  · intro b presign uuid e h
    obtain ⟨bc, bl⟩ := b
    cases bl with
    | none =>
      cases bc <;> simp [S3Backend.getFileUrl] at h <;> rw [← h]
    | some cl =>
      cases bc with
      | none => simp [S3Backend.getFileUrl] at h; rw [← h]
      | some cfg =>
        cases hp : presign cfg.bucket uuid with
        | ok url => simp [S3Backend.getFileUrl, hp] at h
        | error m => simp [S3Backend.getFileUrl, hp] at h; rw [← h]

/-- Witness for C6 at concrete failing runs: a filesystem save failing at
the write (injected EACCES fault) and an S3 save on an inactive backend. -/
theorem c6_error_flattening_witness :
    (MediaBackendError.message { message := "Could not save file 'up/a'" } =
        "Could not create '" ++ "up" ++ "'" ∨
      MediaBackendError.message { message := "Could not save file 'up/a'" } =
        "Could not save file '" ++ pathToString (FilesystemBackend.getFilePath "up" "a")
          ++ "'") ∧
      MediaBackendError.message { message := "Could not save file k on S3" } =
        "Could not save file " ++ "k" ++ " on S3" :=
  ⟨c6_error_flattening.1 ⟨none, none, some "EACCES", none⟩ noRace "up" "a" [1]
      ⟨[["up"]], []⟩ _ (by decide),
   c6_error_flattening.2.2.1 ⟨none, none⟩ none "k" [1] [] _ (by decide)⟩

/-- Claim C7: when S3 is the configured backend and the endpoint URL
parses, the constructed client has the URL hostname as its host, the
parsed numeric port (the explicit port when one is present — the port
attribute is then a nonempty digit string — and `none`, the client
default, otherwise), and the TLS flag set exactly when the scheme is
https. -/
theorem c7_construct_url (cfg : MediaConfig) (u : URLParts) (b : S3Backend.State)
    (hu : cfg.use = BackendType.s3)
    (hp : parseURL cfg.s3.endPoint = some u)
    (hc : S3Backend.construct cfg = some b) :
    b.client = some { endPoint := u.hostname, port := parseIntOpt u.port,
                      useSSL := decide (u.protocol = "https:"),
                      accessKey := cfg.s3.accessKeyId,
                      secretKey := cfg.s3.secretAccessKey,
                      pathStyle := cfg.s3.pathStyle,
                      region := cfg.s3.region } ∧
      (u.port = "" → parseIntOpt u.port = none) ∧
      (∀ cl : S3Client, b.client = some cl → (cl.useSSL = true ↔ u.protocol = "https:")) := by
  unfold S3Backend.construct at hc
  rw [if_pos hu, hp] at hc
  have hb := (Option.some.inj hc).symm
  subst hb
  refine ⟨rfl, ?_, ?_⟩
  · intro hport
    simp [parseIntOpt, hport]
  · intro cl hcl
    have : cl = { endPoint := u.hostname, port := S3Backend.determinePort u,
                  useSSL := decide (u.protocol = "https:"),
                  accessKey := cfg.s3.accessKeyId,
                  secretKey := cfg.s3.secretAccessKey,
                  pathStyle := cfg.s3.pathStyle,
                  region := cfg.s3.region } := (Option.some.inj hcl).symm
    subst this
    simp

/-- Witness for C7 at a concrete configuration with endpoint
`https://minio.example:9000`. -/
theorem c7_construct_url_witness :
    (S3Backend.State.client
        ⟨some ⟨"https://minio.example:9000", "AK", "SK", "bkt", "r1", true⟩,
         some ⟨"minio.example", some 9000, true, "AK", "SK", true, "r1"⟩⟩ =
      some { endPoint := URLParts.hostname ⟨"https:", "minio.example", "9000"⟩,
             port := parseIntOpt (URLParts.port ⟨"https:", "minio.example", "9000"⟩),
             useSSL := decide (URLParts.protocol ⟨"https:", "minio.example", "9000"⟩ = "https:"),
             accessKey := "AK", secretKey := "SK", pathStyle := true, region := "r1" }) ∧
      (URLParts.port ⟨"https:", "minio.example", "9000"⟩ = "" →
        parseIntOpt (URLParts.port ⟨"https:", "minio.example", "9000"⟩) = none) ∧
      (∀ cl : S3Client,
        S3Backend.State.client
            ⟨some ⟨"https://minio.example:9000", "AK", "SK", "bkt", "r1", true⟩,
             some ⟨"minio.example", some 9000, true, "AK", "SK", true, "r1"⟩⟩ = some cl →
          (cl.useSSL = true ↔ URLParts.protocol ⟨"https:", "minio.example", "9000"⟩ = "https:")) :=
  c7_construct_url
    ⟨BackendType.s3, "up", ⟨"https://minio.example:9000", "AK", "SK", "bkt", "r1", true⟩⟩
    ⟨"https:", "minio.example", "9000"⟩ _ (by decide) (by decide) (by decide)

/-- Claim C8: an `S3Backend` constructed while configuration selects a
different backend has `config` and `client` undefined, and invoking any of
its three operations does not escape as a raw undefined-dereference crash:
each fails with the operation `StorageError` (the synchronous TypeError is
raised inside the try block and lands in the catch). -/
theorem c8_inactive_backend (cfg : MediaConfig) (b : S3Backend.State)
    (hn : cfg.use ≠ BackendType.s3) (hc : S3Backend.construct cfg = some b) :
    b.config = none ∧ b.client = none ∧
      (∀ (fault : Option String) (uuid : String) (buffer : Bytes) (st : S3Store),
        S3Backend.saveFile b fault uuid buffer st =
          .error { message := "Could not save file " ++ uuid ++ " on S3" }) ∧
      (∀ (fault : Option String) (uuid : String) (st : S3Store),
        S3Backend.deleteFile b fault uuid st =
          .error { message := "Could not delete '" ++ uuid ++ "' on S3" }) ∧
      (∀ (presign : String → String → Except String String) (uuid : String),
        S3Backend.getFileUrl b presign uuid =
          .error { message := "Could not get URL for '" ++ uuid ++ "' on S3" }) := by
  unfold S3Backend.construct at hc
  rw [if_neg hn] at hc
  have hb := (Option.some.inj hc).symm
  subst hb
  refine ⟨rfl, rfl, ?_, ?_, ?_⟩
  · intro fault uuid buffer st
    rfl
  · intro fault uuid st
    rfl
  · intro presign uuid
    rfl

/-- Witness for C8 at a concrete configuration selecting the filesystem
backend. -/
theorem c8_inactive_backend_witness :
    S3Backend.State.config (⟨none, none⟩ : S3Backend.State) = none ∧
      S3Backend.State.client (⟨none, none⟩ : S3Backend.State) = none ∧
      (∀ (fault : Option String) (uuid : String) (buffer : Bytes) (st : S3Store),
        S3Backend.saveFile ⟨none, none⟩ fault uuid buffer st =
          .error { message := "Could not save file " ++ uuid ++ " on S3" }) ∧
      (∀ (fault : Option String) (uuid : String) (st : S3Store),
        S3Backend.deleteFile ⟨none, none⟩ fault uuid st =
          .error { message := "Could not delete '" ++ uuid ++ "' on S3" }) ∧
      (∀ (presign : String → String → Except String String) (uuid : String),
        S3Backend.getFileUrl ⟨none, none⟩ presign uuid =
          .error { message := "Could not get URL for '" ++ uuid ++ "' on S3" }) :=
  c8_inactive_backend
    ⟨BackendType.filesystem, "up", ⟨"https://h", "AK", "SK", "bkt", "r1", true⟩⟩
    ⟨none, none⟩ (by decide) (by decide)

/-! Lemmas about path splitting and normalization, for the sanitization and
frame claims. -/

theorem toList_mk (cs : List Char) : (String.mk cs).toList = cs := rfl

theorem mk_toList (s : String) : String.mk s.toList = s := rfl

theorem splitChars_ne_nil (sep : Char) (cs : List Char) : splitChars sep cs ≠ [] := by
  cases cs with
  | nil => simp [splitChars]
  | cons c rest =>
    by_cases hc : c = sep
    · simp [splitChars, hc]
    · cases hs : splitChars sep rest with
      | nil => simp [splitChars, hc, hs]
      | cons hd tl => simp [splitChars, hc, hs]

theorem mem_splitChars_not_sep (sep : Char) (cs : List Char) (piece : List Char)
    (h : piece ∈ splitChars sep cs) : sep ∉ piece := by
  induction cs generalizing piece with
  | nil =>
    simp [splitChars] at h
    subst h
    simp
  | cons c rest ih =>
    by_cases hc : c = sep
    · simp [splitChars, hc] at h
      rcases h with h | h
      · subst h; simp
      · exact ih piece h
    · cases hs : splitChars sep rest with
      | nil => exact absurd hs (splitChars_ne_nil sep rest)
      | cons hd tl =>
        simp [splitChars, hc, hs] at h
        rcases h with h | h
        · subst h
          intro hmem
          rcases List.mem_cons.mp hmem with h1 | h1
          · exact hc h1.symm
          · exact ih hd (by rw [hs]; exact List.mem_cons_self hd tl) h1
        · exact ih piece (by rw [hs]; exact List.mem_cons_of_mem hd h)

theorem splitChars_no_sep (sep : Char) (cs : List Char) (h : sep ∉ cs) :
    splitChars sep cs = [cs] := by
  induction cs with
  | nil => rfl
  | cons c rest ih =>
    have hc : ¬ c = sep := fun he => h (he ▸ List.mem_cons_self c rest)
    have hrest : sep ∉ rest := fun hm => h (List.mem_cons_of_mem c hm)
    simp [splitChars, hc, ih hrest]

theorem splitPath_no_sep (s : String) (h : ¬ '/' ∈ s.toList) : splitPath s = [s] := by
  unfold splitPath
  rw [splitChars_no_sep '/' s.toList h]
  simp [mk_toList]

theorem mem_splitPath_no_slash (s x : String) (h : x ∈ splitPath s) :
    ¬ '/' ∈ x.toList := by
  unfold splitPath at h
  rcases List.mem_map.mp h with ⟨cs, hcs, hx⟩
  subst hx
  rw [toList_mk]
  exact mem_splitChars_not_sep '/' s.toList cs hcs

theorem mem_normStep (abs : Bool) (stk : List String) (seg x : String)
    (h : x ∈ normStep abs stk seg) : x ∈ stk ∨ x = seg ∨ x = ".." := by
  unfold normStep at h
  by_cases h1 : seg = "" ∨ seg = "."
  · rw [if_pos h1] at h; exact Or.inl h
  · rw [if_neg h1] at h
    by_cases h2 : seg = ".."
    · rw [if_pos h2] at h
      cases stk with
      | nil =>
        cases abs with
        | true => simp at h
        | false =>
          simp at h
          exact Or.inr (Or.inr h)
      | cons top rest =>
        have h' : x ∈ (if top = ".." then ".." :: top :: rest else rest) := h
        by_cases h3 : top = ".."
        · rw [if_pos h3] at h'
          rcases List.mem_cons.mp h' with h4 | h4
          · exact Or.inr (Or.inr h4)
          · exact Or.inl h4
        · rw [if_neg h3] at h'
          exact Or.inl (List.mem_cons_of_mem top h')
    · rw [if_neg h2] at h
      rcases List.mem_cons.mp h with h4 | h4
      · exact Or.inr (Or.inl h4)
      · exact Or.inl h4

theorem mem_foldl_normStep (abs : Bool) (segs stk : List String) (x : String)
    (h : x ∈ List.foldl (normStep abs) stk segs) : x ∈ stk ∨ x ∈ segs ∨ x = ".." := by
  induction segs generalizing stk with
  | nil => simp at h; exact Or.inl h
  | cons seg rest ih =>
    rw [List.foldl_cons] at h
    rcases ih (normStep abs stk seg) h with h1 | h1 | h1
    · rcases mem_normStep abs stk seg x h1 with h2 | h2 | h2
      · exact Or.inl h2
      · exact Or.inr (Or.inl (h2 ▸ List.mem_cons_self seg rest))
      · exact Or.inr (Or.inr h2)
    · exact Or.inr (Or.inl (List.mem_cons_of_mem seg h1))
    · exact Or.inr (Or.inr h1)

theorem mem_joinPath (dir name x : String) (h : x ∈ joinPath dir name) :
    x = "" ∨ x ∈ splitPath dir ∨ x ∈ splitPath name ∨ x = ".." := by
  unfold joinPath at h
  rcases List.mem_append.mp h with h1 | h1
  · cases habs : isAbs dir with
    | true => rw [habs] at h1; simp at h1; exact Or.inl h1
    | false => rw [habs] at h1; simp at h1
  · rw [normPath, List.mem_reverse] at h1
    rcases mem_foldl_normStep (isAbs dir) _ [] x h1 with h2 | h2 | h2
    · simp at h2
    · rcases List.mem_append.mp h2 with h3 | h3
      · exact Or.inr (Or.inl h3)
      · exact Or.inr (Or.inr (Or.inl h3))
    · exact Or.inr (Or.inr (Or.inr h2))

theorem foldl_normStep_single (abs : Bool) (stk : List String) (seg : String) :
    List.foldl (normStep abs) stk [seg] = normStep abs stk seg := rfl

theorem uploadDirPath_eq (dir : String) :
    FilesystemBackend.uploadDirPath dir =
      (if isAbs dir then [""] else []) ++
        (List.foldl (normStep (isAbs dir)) [] (splitPath dir)).reverse := by
  unfold FilesystemBackend.uploadDirPath joinPath normPath
  rw [show splitPath "" = [""] from rfl, List.foldl_append, foldl_normStep_single]
  have : normStep (isAbs dir) (List.foldl (normStep (isAbs dir)) [] (splitPath dir)) "" =
      List.foldl (normStep (isAbs dir)) [] (splitPath dir) := by
    simp [normStep]
  rw [this]

theorem joinPath_ne_flat_of_slash (dir id : String) (hid : '/' ∈ id.toList) :
    joinPath dir id ≠ FilesystemBackend.uploadDirPath dir ++ [id] := by
  intro he
  have hmem : id ∈ joinPath dir id := by
    rw [he]
    exact List.mem_append.mpr (Or.inr (by simp))
  rcases mem_joinPath dir id id hmem with h | h | h | h
  · rw [h] at hid; exact absurd hid (by decide)
  · exact mem_splitPath_no_slash dir id h hid
  · exact mem_splitPath_no_slash id id h hid
  · rw [h] at hid; exact absurd hid (by decide)

theorem joinPath_dotdot_ne_flat (dir : String)
    (hne : FilesystemBackend.uploadDirPath dir ≠ [])
    (hdd : ".." ∉ FilesystemBackend.uploadDirPath dir) :
    joinPath dir ".." ≠ FilesystemBackend.uploadDirPath dir ++ [".."] := by
  intro he
  have hj : joinPath dir ".." =
      (if isAbs dir then [""] else []) ++
        (normStep (isAbs dir) (List.foldl (normStep (isAbs dir)) [] (splitPath dir))
          "..").reverse := by
    unfold joinPath normPath
    rw [show splitPath ".." = [".."] from rfl, List.foldl_append, foldl_normStep_single]
  rw [hj, uploadDirPath_eq] at he
  rw [uploadDirPath_eq] at hne hdd
  cases hstk : List.foldl (normStep (isAbs dir)) [] (splitPath dir) with
  | nil =>
    rw [hstk] at he hne
    cases habs : isAbs dir with
    | false => rw [habs] at hne; simp at hne
    | true =>
      rw [habs] at he
      have hstep : normStep true ([] : List String) ".." = [] := by simp [normStep]
      rw [hstep] at he
      have := congrArg List.length he
      simp at this
  | cons top rest =>
    rw [hstk] at he hdd
    have htop : ¬ top = ".." := by
      intro hcontra
      exact hdd (List.mem_append.mpr (Or.inr (by
        rw [List.mem_reverse]
        exact hcontra ▸ List.mem_cons_self top rest)))
    have hstep : normStep (isAbs dir) (top :: rest) ".." = rest := by
      simp [normStep, htop]
    rw [hstep] at he
    have := congrArg List.length he
    simp [List.length_append, List.length_reverse] at this

/-- Claim C9: the filesystem backend performs no sanitization of the
identifier.  Conjunct 1: the target path is by definition exactly the
path-join of the upload directory and the identifier.  Conjunct 2: for any
sanely configured upload directory (nonempty normalized path without
parent segments), an identifier containing a path separator or a `..`
segment never resolves to the flat-layout location
`<uploadDirectory>/<id-as-single-filename>` that a sanitizing flat store
would use, so the operations act on some other path.  Conjunct 3:
`getFileUrl` embeds every identifier verbatim in the returned URL.
Conjunct 4: a concrete traversal — under upload directory `up`, the
identifier `../evil` resolves to the path `evil` outside the upload
directory. -/
theorem c9_no_sanitization :
    (∀ dir id : String, FilesystemBackend.getFilePath dir id = joinPath dir id) ∧
      (∀ dir id : String,
          FilesystemBackend.uploadDirPath dir ≠ [] →
          ".." ∉ FilesystemBackend.uploadDirPath dir →
          ('/' ∈ id.toList ∨ ".." ∈ splitPath id) →
            FilesystemBackend.getFilePath dir id ≠
              FilesystemBackend.uploadDirPath dir ++ [id]) ∧
      (∀ id : String, FilesystemBackend.getFileUrl id = "/uploads/" ++ id) ∧
      FilesystemBackend.getFilePath "up" "../evil" = ["evil"] := by
  refine ⟨fun _ _ => rfl, ?_, fun _ => rfl, by decide⟩
  intro dir id hne hdd hbad
  by_cases hs : '/' ∈ id.toList
  · exact joinPath_ne_flat_of_slash dir id hs
  · have hid : id = ".." := by
      rcases hbad with hbad | hbad
      · exact absurd hbad hs
      · rw [splitPath_no_sep id hs] at hbad
        rcases List.mem_cons.mp hbad with h | h
        · exact h.symm
        · simp at h
    subst hid
    exact joinPath_dotdot_ne_flat dir hne hdd

/-- Witness for C9 at the concrete escaping identifier `../evil` under the
upload directory `up`. -/
theorem c9_no_sanitization_witness :
    FilesystemBackend.getFilePath "up" "../evil" ≠
      FilesystemBackend.uploadDirPath "up" ++ ["../evil"] :=
  c9_no_sanitization.2.1 "up" "../evil" (by decide) (by decide) (Or.inl (by decide))

/-- An identifier that is an ordinary single path segment: no separator and
not one of the special names. -/
def normalSeg (id : String) : Prop :=
  ¬ '/' ∈ id.toList ∧ id ≠ "" ∧ id ≠ "." ∧ id ≠ ".."

instance (id : String) : Decidable (normalSeg id) := by
  unfold normalSeg
  infer_instance

theorem getFilePath_normalSeg (dir id : String) (h : normalSeg id) :
    FilesystemBackend.getFilePath dir id =
      FilesystemBackend.uploadDirPath dir ++ [id] := by
  obtain ⟨hsep, h0, h1, h2⟩ := h
  unfold FilesystemBackend.getFilePath joinPath normPath
  rw [splitPath_no_sep id hsep, List.foldl_append, foldl_normStep_single]
  have hstep : normStep (isAbs dir) (List.foldl (normStep (isAbs dir)) [] (splitPath dir)) id =
      id :: List.foldl (normStep (isAbs dir)) [] (splitPath dir) := by
    simp [normStep, h0, h1, h2]
  rw [hstep, List.reverse_cons, uploadDirPath_eq, List.append_assoc]

theorem getFilePath_normalSeg_ne (dir id1 id2 : String) (h1 : normalSeg id1)
    (h2 : normalSeg id2) (hne : id1 ≠ id2) :
    FilesystemBackend.getFilePath dir id1 ≠ FilesystemBackend.getFilePath dir id2 := by
  rw [getFilePath_normalSeg dir id1 h1, getFilePath_normalSeg dir id2 h2]
  intro he
  exact hne (List.head_eq_of_cons_eq (List.append_cancel_left he))

/-- Claim C10 counterexample: the frame property fails as stated for the
separator-free identifiers `.` and the empty string, which both resolve to
the upload path itself.  With the configured upload path naming a regular
file `d` holding `[7]` (and no directory), `saveFile(".", [9])` succeeds
and overwrites the content stored at identifier `""`, and `deleteFile(".")`
succeeds and removes it — both change the stored content at the distinct,
separator-free identifier `""`. -/
theorem c10_frame_counterexample :
    ("." ≠ "" ∧ ¬ '/' ∈ ".".toList ∧ ¬ '/' ∈ "".toList) ∧
      FilesystemBackend.getFilePath "d" "." = FilesystemBackend.getFilePath "d" "" ∧
      fileAt ⟨[], [(["d"], [7])]⟩ (FilesystemBackend.getFilePath "d" "") = some [7] ∧
      FilesystemBackend.saveFile noFaults noRace "d" "." [9] ⟨[], [(["d"], [7])]⟩ =
        .ok ⟨[], [(["d"], [9])]⟩ ∧
      fileAt ⟨[], [(["d"], [9])]⟩ (FilesystemBackend.getFilePath "d" "") = some [9] ∧
      FilesystemBackend.deleteFile noFaults "d" "." ⟨[], [(["d"], [7])]⟩ = .ok ⟨[], []⟩ ∧
      fileAt ⟨[], []⟩ (FilesystemBackend.getFilePath "d" "") = none := by
  decide

/-- Claim C10 amended: the frame property restricted to ordinary
identifiers (separator-free and none of the special path names `""`, `.`,
`..`): a successful sequential `saveFile(id1, c)` leaves the content
stored at any distinct ordinary `id2` unchanged and touches the directory
set at most by adding the upload directory itself, and a successful
`deleteFile(id1)` leaves the content at `id2` and the directory set
unchanged. -/
theorem c10_frame_amended :
    (∀ (f : FsFaults) (dir id1 id2 : String) (c : Bytes) (s s2 : FsState),
        normalSeg id1 → normalSeg id2 → id1 ≠ id2 →
        FilesystemBackend.saveFile f noRace dir id1 c s = .ok s2 →
          fileAt s2 (FilesystemBackend.getFilePath dir id2) =
              fileAt s (FilesystemBackend.getFilePath dir id2) ∧
            (s2.dirs = s.dirs ∨
              s2.dirs = FilesystemBackend.uploadDirPath dir :: s.dirs)) ∧
      (∀ (f : FsFaults) (dir id1 id2 : String) (s s2 : FsState),
          normalSeg id1 → normalSeg id2 → id1 ≠ id2 →
          FilesystemBackend.deleteFile f dir id1 s = .ok s2 →
            fileAt s2 (FilesystemBackend.getFilePath dir id2) =
                fileAt s (FilesystemBackend.getFilePath dir id2) ∧
              s2.dirs = s.dirs) := by
  constructor
  · intro f dir id1 id2 c s s2 hn1 hn2 hne h
    have hpne : FilesystemBackend.getFilePath dir id2 ≠ FilesystemBackend.getFilePath dir id1 :=
      fun he => getFilePath_normalSeg_ne dir id1 id2 hn1 hn2 hne he.symm
    unfold FilesystemBackend.saveFile at h
    cases hens : FilesystemBackend.ensureDirectory f noRace dir s with
    | error e => simp only [hens] at h; exact Except.noConfusion h
    | ok s1 =>
      simp only [hens] at h
      cases hw : fsWriteFile f.write s1 (FilesystemBackend.getFilePath dir id1) c with
      | error m => simp only [hw] at h; exact Except.noConfusion h
      | ok s3 =>
        simp only [hw] at h
        obtain ⟨-, -, -, hs3⟩ := (fsWriteFile_ok_iff _ _ _ _ _).mp hw
        have hs : s2 = s3 := (Except.ok.inj h).symm
        subst hs; subst hs3
        have hfiles1 : s1.files = s.files ∧
            (s1.dirs = s.dirs ∨
              s1.dirs = FilesystemBackend.uploadDirPath dir :: s.dirs) := by
          rcases ensureDirectory_ok f noRace dir s s1 hens with ⟨rfl, -⟩ | rfl
          · exact ⟨rfl, Or.inl rfl⟩
          · exact ⟨rfl, Or.inr rfl⟩
        constructor
        · show fileAt (writeUpd s1 (FilesystemBackend.getFilePath dir id1) c)
              (FilesystemBackend.getFilePath dir id2) =
            fileAt s (FilesystemBackend.getFilePath dir id2)
          unfold writeUpd fileAt
          rw [lookupB_cons_ne _ _ _ _ hpne, lookupB_eraseB_ne _ _ _ hpne, hfiles1.1]
        · exact hfiles1.2
  · intro f dir id1 id2 s s2 hn1 hn2 hne h
    have hpne : FilesystemBackend.getFilePath dir id2 ≠ FilesystemBackend.getFilePath dir id1 :=
      fun he => getFilePath_normalSeg_ne dir id1 id2 hn1 hn2 hne he.symm
    unfold FilesystemBackend.deleteFile at h
    cases hu : fsUnlink f.unlink s (FilesystemBackend.getFilePath dir id1) with
    | error m => simp only [hu] at h; exact Except.noConfusion h
    | ok s3 =>
      simp only [hu] at h
      obtain ⟨-, -, hs3⟩ := (fsUnlink_ok_iff _ _ _ _).mp hu
      have hs : s2 = s3 := (Except.ok.inj h).symm
      subst hs; subst hs3
      constructor
      · show fileAt (eraseUpd s (FilesystemBackend.getFilePath dir id1))
            (FilesystemBackend.getFilePath dir id2) =
          fileAt s (FilesystemBackend.getFilePath dir id2)
        unfold eraseUpd fileAt
        rw [lookupB_eraseB_ne _ _ _ hpne]
      · rfl

/-- Witness for the amended C10 at a concrete run: saving under identifier
`a` while identifier `b` holds `[5]`. -/
theorem c10_frame_amended_witness :
    fileAt ⟨[["up"]], [(["up", "a"], [1]), (["up", "b"], [5])]⟩
        (FilesystemBackend.getFilePath "up" "b") =
      fileAt ⟨[], [(["up", "b"], [5])]⟩ (FilesystemBackend.getFilePath "up" "b") ∧
      (FsState.dirs ⟨[["up"]], [(["up", "a"], [1]), (["up", "b"], [5])]⟩ =
          FsState.dirs ⟨[], [(["up", "b"], [5])]⟩ ∨
        FsState.dirs ⟨[["up"]], [(["up", "a"], [1]), (["up", "b"], [5])]⟩ =
          FilesystemBackend.uploadDirPath "up" :: FsState.dirs ⟨[], [(["up", "b"], [5])]⟩) :=
  c10_frame_amended.1 noFaults "up" "a" "b" [1] ⟨[], [(["up", "b"], [5])]⟩
    ⟨[["up"]], [(["up", "a"], [1]), (["up", "b"], [5])]⟩
    (by decide) (by decide) (by decide) (by decide)
